import Mathlib

set_option maxRecDepth 100000

/-!
Verification of the record-classification, state-tracking and content-sanitization
pipeline of `whatsapp_archive.py` (a WhatsApp chat-export to HTML converter).

The Python source works by applying a fixed set of regular expressions
(`re.match`, `re.search`, `re.sub`) to each record, deriving a per-author color
from an MD5 hash, guessing text direction from the Unicode bidirectional class of
the body's first character, and folding a mutable conversation name through the
record stream.  This file shallowly embeds that pipeline:

* a small backtracking regular-expression engine (`mre`) reproducing Python's
  leftmost / greedy / ordered-alternation matching semantics for exactly the
  constructs those patterns use (literals, case-insensitive literals, one-char
  classes, greedy and lazy star over a class, greedy option, ordered
  alternation, named groups, and the DOTALL-mode `$` anchor);
* the patterns `WHATSAPP_RE`, `FIRSTLINE_RE`, `GROUP_RE_1`, `GROUP_RE_2`, the
  link pattern and the three attachment patterns, translated constructor by
  constructor from the source strings;
* MD5 (RFC 1321) over `Nat`, anchored below against the standard test vectors,
  modelling `hashlib.md5`;
* a partial model of `unicodedata.bidirectional` (the Unicode character
  database is an external collaborator of the source; the model covers the
  ASCII range plus the Hebrew and Arabic letter blocks used by the claims);
* the functions `getColor`, `massageBody`, `ParseLine`, `IdentifyMessages`,
  with Python's uncaught `IndexError` (empty body indexed at position 0)
  modelled as `Except.error` and the external `dateutil` datetime normalizer
  modelled by the exact token string the source hands to it.
-/

/-! ### Characters and small helpers -/

def chAmp : Char := '&'
def chLt : Char := '<'
def chGt : Char := '>'
def chNl : Char := '\n'
def chSpace : Char := ' '
def chColon : Char := ':'
def chSlash : Char := '/'
def chDash : Char := '-'
def chA : Char := 'A'
def chP : Char := 'P'
def chH : Char := 'h'

/-- ASCII decimal digit test; models `\d` of the source's patterns (Python's
`\d` also covers non-ASCII decimal digits, which no claim exercises). -/
def isDig (c : Char) : Bool := 48 ≤ c.toNat && c.toNat ≤ 57

/-- ASCII lower-casing on code points, modelling the case folding used by
`re.IGNORECASE` on the ASCII-only attachment patterns of the source. -/
def lowN (n : Nat) : Nat := if 65 ≤ n && n ≤ 90 then n + 32 else n

/-! ### Model of `unicodedata.bidirectional`

The source consults the Unicode character database (module `unicodedata`),
an external collaborator.  `bidiOfNat` is a partial model of the bidirectional
class by code point: it is exact on ASCII, on the Hebrew block's letters and
points and on the main Arabic letter ranges — every character any claim
touches — and defaults to `L` elsewhere. -/

def strR : String := "R"
def strAL : String := "AL"
def strNSM : String := "NSM"
def strEN : String := "EN"
def strWS : String := "WS"
def strB : String := "B"
def strL : String := "L"
def strCS : String := "CS"
def strET : String := "ET"
def strES : String := "ES"
def strON : String := "ON"

def bidiOfNat (n : Nat) : String :=
  if n = 0x05BE ∨ n = 0x05C0 ∨ n = 0x05C3 ∨ n = 0x05C6 ∨
     (0x05D0 ≤ n ∧ n ≤ 0x05EA) ∨ (0x05EF ≤ n ∧ n ≤ 0x05F4) then strR
  else if (0x0591 ≤ n ∧ n ≤ 0x05BD) ∨ n = 0x05BF ∨ n = 0x05C1 ∨ n = 0x05C2 ∨
     n = 0x05C4 ∨ n = 0x05C5 ∨ n = 0x05C7 then strNSM
  else if n = 0x0608 ∨ n = 0x060B ∨ n = 0x060D ∨ (0x061B ≤ n ∧ n ≤ 0x064A) ∨
     (0x066D ≤ n ∧ n ≤ 0x066F) ∨ (0x0671 ≤ n ∧ n ≤ 0x06D5) then strAL
  else if 48 ≤ n ∧ n ≤ 57 then strEN
  else if n = 32 then strWS
  else if n = 10 ∨ n = 13 then strB
  else if (65 ≤ n ∧ n ≤ 90) ∨ (97 ≤ n ∧ n ≤ 122) then strL
  else if n = 44 ∨ n = 46 ∨ n = 47 ∨ n = 58 then strCS
  else if n = 37 then strET
  else if n = 43 ∨ n = 45 then strES
  else if 33 ≤ n ∧ n ≤ 126 then strON
  else strL

/-- Model of `unicodedata.bidirectional` on `Char` (see `bidiOfNat`). -/
def bidirectional (c : Char) : String := bidiOfNat c.toNat

/-! ### Regular-expression engine

`RE` covers exactly the constructs appearing in the source's patterns.  `mre`
is a continuation-passing backtracking matcher anchored at the start of its
input, reproducing Python's ordered-alternation, greedy/lazy semantics; `dol`
is `$` without MULTILINE (matches at the end, or before one final newline).
Captures record the consumed slice when a group exits, most recent first. -/

abbrev Caps := List (Nat × List Char)

inductive RE where
  | eps : RE
  | lit : List Char → RE
  | litCI : List Char → RE
  | cls : (Char → Bool) → RE
  | cat : RE → RE → RE
  | alt : RE → RE → RE
  | opt : RE → RE
  | star : (Char → Bool) → RE
  | lazyStar : (Char → Bool) → RE
  | grp : Nat → RE → RE
  | dol : RE

def cats (l : List RE) : RE := l.foldr .cat .eps

/-- Greedy plus over a one-character class (`X+`). -/
def plusC (p : Char → Bool) : RE := .cat (.cls p) (.star p)

def orElseO {σ : Type} : Option σ → Option σ → Option σ
  | some x, _ => some x
  | none, b => b

/-- Strip a literal (case-sensitively) from the front of the input. -/
def dropLit : List Char → List Char → Option (List Char)
  | [], s => some s
  | _ :: _, [] => none
  | p :: ps, c :: s => if c == p then dropLit ps s else none

/-- Strip a literal case-insensitively (ASCII folding, see `lowN`). -/
def dropLitCI : List Char → List Char → Option (List Char)
  | [], s => some s
  | _ :: _, [] => none
  | p :: ps, c :: s => if lowN c.toNat == lowN p.toNat then dropLitCI ps s else none

/-- Greedy Kleene star over a one-char class: consume as much as possible,
then backtrack one character at a time through the continuation `k`. -/
def greedyStar {σ : Type} (p : Char → Bool) (k : List Char → Caps → Option σ) :
    List Char → Caps → Option σ
  | [], caps => k [] caps
  | c :: s, caps =>
    if p c then orElseO (greedyStar p k s caps) (k (c :: s) caps) else k (c :: s) caps

/-- Lazy star over a one-char class: try the continuation first, then grow. -/
def lazyStarRun {σ : Type} (p : Char → Bool) (k : List Char → Caps → Option σ) :
    List Char → Caps → Option σ
  | [], caps => k [] caps
  | c :: s, caps =>
    orElseO (k (c :: s) caps) (if p c then lazyStarRun p k s caps else none)

/-- The backtracking matcher, anchored at the start of `s` (Python `re.match`
position 0).  Returns the first success of the continuation `k` in Python's
backtracking order. -/
def mre {σ : Type} : RE → List Char → Caps → (List Char → Caps → Option σ) → Option σ
  | .eps, s, caps, k => k s caps
  | .lit l, s, caps, k =>
    match dropLit l s with
    | some s2 => k s2 caps
    | none => none
  | .litCI l, s, caps, k =>
    match dropLitCI l s with
    | some s2 => k s2 caps
    | none => none
  | .cls p, s, caps, k =>
    match s with
    | [] => none
    | c :: s2 => if p c then k s2 caps else none
  | .cat a b, s, caps, k => mre a s caps (fun s2 caps2 => mre b s2 caps2 k)
  | .alt a b, s, caps, k => orElseO (mre a s caps k) (mre b s caps k)
  | .opt a, s, caps, k => orElseO (mre a s caps k) (k s caps)
  | .star p, s, caps, k => greedyStar p k s caps
  | .lazyStar p, s, caps, k => lazyStarRun p k s caps
  | .grp n a, s, caps, k =>
    mre a s caps (fun s2 caps2 => k s2 ((n, s.take (s.length - s2.length)) :: caps2))
  | .dol, s, caps, k => if s.isEmpty || s == [chNl] then k s caps else none

/-- Run an anchored match, returning the unconsumed rest and the captures. -/
def mreRun (r : RE) (s : List Char) : Option (List Char × Caps) :=
  mre r s [] (fun rest caps => some (rest, caps))

/-- Model of `re.match(r, s)`: captures on success (rest of input ignored). -/
def reMatch (r : RE) (s : List Char) : Option Caps :=
  (mreRun r s).map (fun p => p.2)

/-- Model of `re.search(r, s) is not None`: try an anchored match at every
successive start position, leftmost first. -/
def reSearch (r : RE) : List Char → Bool
  | [] => (mreRun r []).isSome
  | c :: s => (mreRun r (c :: s)).isSome || reSearch r s

/-- Fuelled worker for `re.sub`: at each position try an anchored match; on a
match emit the instantiated template and continue after the consumed text,
otherwise keep one character and move on.  Every pattern the source substitutes
consumes at least one character, so each step advances and fuel
`length + 1` (see `subAll`) is never exhausted; a zero-width match would leave
the remainder unchanged. -/
def reSubFuel (r : RE) (tmpl : Caps → List Char) : Nat → List Char → List Char
  | 0, s => s
  | _ + 1, [] => []
  | f + 1, c :: s =>
    match mreRun r (c :: s) with
    | some (rest, caps) =>
      if rest.length < (c :: s).length then tmpl caps ++ reSubFuel r tmpl f rest
      else c :: s
    | none => c :: reSubFuel r tmpl f s

/-- Model of `re.sub(r, tmpl, s)` (global substitution). -/
def subAll (r : RE) (tmpl : Caps → List Char) (s : List Char) : List Char :=
  reSubFuel r tmpl (s.length + 1) s

/-- Python `m.group(n)`: the most recent capture of group `n`. -/
def capGet : Caps → Nat → List Char
  | [], _ => []
  | (m, v) :: rest, n => if m == n then v else capGet rest n

/-! ### The source's patterns -/

def gDate : Nat := 1
def gTime : Nat := 2
def gName : Nat := 3
def gBody : Nat := 4
def gGroup : Nat := 5
def gLink : Nat := 6
def gFile : Nat := 7

def strLrm : String := "\u200E"
def strLB : String := "["
def strRB : String := "]"
def strComma : String := ","
def strSpace : String := " "
def strM : String := "M"
def strSepDash : String := " - "
def strSepColon : String := ": "
def strColon : String := ":"
def strCreatedGroup : String := "created group “"
def strRQuote : String := "”"
def strSecured : String := "Messages to this group are now secured"
def strHttp : String := "http"
def strS : String := "s"
def strSlashes : String := "://"
def strAttOpen : String := "&lt;attached: "
def strAttClose : String := "&gt;"
def strDot : String := "."
def strJp : String := "jp"
def strE : String := "e"
def strG : String := "g"
def strPng : String := "png"
def strGif : String := "gif"
def strWebp : String := "webp"
def strMp4 : String := "mp4"
def strMov : String := "mov"
def str3gp : String := "3gp"
def strOpus : String := "opus"

/-- Character class of `DATE_RE`: digits, slash, dash. -/
def isDateChar (c : Char) : Bool := isDig c || c == chSlash || c == chDash

/-- Character class `[\d:]` of `TIME_RE`. -/
def isTimeChar (c : Char) : Bool := isDig c || c == chColon

/-- Character class `[^:]` of `NAME_RE`. -/
def isNotColon (c : Char) : Bool := !(c == chColon)

/-- The DOTALL `.` (patterns compiled with `re.DOTALL`). -/
def anyCh (_ : Char) : Bool := true

/-- The plain `.` (no DOTALL — the substitution patterns). -/
def notNewline (c : Char) : Bool := !(c == chNl)

/-- Character class `[^ \n<]` of the link pattern. -/
def isLinkTail (c : Char) : Bool := !(c == chSpace) && !(c == chNl) && !(c == chLt)

/-- Character class `[AP]` of `TIME_RE`. -/
def isAorP (c : Char) : Bool := c == chA || c == chP

/-- Source: `DATE_RE` — a named group of one or more digit, slash or dash characters. -/
def DATE_RE : RE := .grp gDate (plusC isDateChar)

/-- Source: `TIME_RE = r'(?P<time>[\d:]+( [AP]M)?)'`. -/
def TIME_RE : RE :=
  .grp gTime (.cat (plusC isTimeChar)
    (.opt (cats [.lit strSpace.data, .cls isAorP, .lit strM.data])))

/-- Source: `DATETIME_RE = r'\[?' + DATE_RE + ',? ' + TIME_RE + '\]?'`. -/
def DATETIME_RE : RE :=
  cats [.opt (.lit strLB.data), DATE_RE, .opt (.lit strComma.data),
        .lit strSpace.data, TIME_RE, .opt (.lit strRB.data)]

/-- Source: `SEPARATOR_RE = r'( - |: | )'`. -/
def SEPARATOR_RE : RE :=
  .alt (.lit strSepDash.data) (.alt (.lit strSepColon.data) (.lit strSpace.data))

/-- Source: `NAME_RE = r'(?P<name>[^:]+)'`. -/
def NAME_RE : RE := .grp gName (plusC isNotColon)

/-- Source: `r'(?P<body>.*$)'` under `re.DOTALL`. -/
def BODY_RE : RE := .grp gBody (.cat (.star anyCh) .dol)

/-- Source: `WHATSAPP_RE = LRM_OPT + DATETIME_RE + SEPARATOR_RE + NAME_RE + r': ' + LRM_OPT + r'(?P<body>.*$)'`. -/
def WHATSAPP_RE : RE :=
  cats [.opt (.lit strLrm.data), DATETIME_RE, SEPARATOR_RE, NAME_RE,
        .lit strSepColon.data, .opt (.lit strLrm.data), BODY_RE]

/-- Source: `FIRSTLINE_RE = DATETIME_RE + SEPARATOR_RE + r'(?P<body>.*$)'`. -/
def FIRSTLINE_RE : RE := cats [DATETIME_RE, SEPARATOR_RE, BODY_RE]

/-- Source: `GROUP_RE_1 = r'created group “(?P<groupName>.+)”'` (typographic
quotation marks, as in the source file). -/
def GROUP_RE_1 : RE :=
  cats [.lit strCreatedGroup.data, .grp gGroup (plusC anyCh), .lit strRQuote.data]

/-- Source: `GROUP_RE_2 = DATETIME_RE + SEPARATOR_RE + r'(?P<groupName>.*?):.*Messages to this group are now secured'`. -/
def GROUP_RE_2 : RE :=
  cats [DATETIME_RE, SEPARATOR_RE, .grp gGroup (.lazyStar anyCh),
        .lit strColon.data, .star anyCh, .lit strSecured.data]

/-- Source: `r'(?P<link>https?://.[^ \n<]+)'`. -/
def LINK_RE : RE :=
  .grp gLink (cats [.lit strHttp.data, .opt (.lit strS.data), .lit strSlashes.data,
                    .cls notNewline, plusC isLinkTail])

/-- Extension alternation `(jpe?g|png|gif|webp)` (case-insensitive). -/
def EXT_IMG_RE : RE :=
  .alt (cats [.litCI strJp.data, .opt (.litCI strE.data), .litCI strG.data])
    (.alt (.litCI strPng.data) (.alt (.litCI strGif.data) (.litCI strWebp.data)))

/-- Extension alternation `(mp4|mov|3gp)` (case-insensitive). -/
def EXT_MOV_RE : RE :=
  .alt (.litCI strMp4.data) (.alt (.litCI strMov.data) (.litCI str3gp.data))

/-- Source: `ATTACHMENT_IMG_RE = r'&lt;attached: (?P<filename>.+\.(jpe?g|png|gif|webp))&gt;'`, used with `re.IGNORECASE`. -/
def ATTACHMENT_IMG_RE : RE :=
  cats [.litCI strAttOpen.data,
        .grp gFile (cats [plusC notNewline, .lit strDot.data, EXT_IMG_RE]),
        .litCI strAttClose.data]

/-- Source: `ATTACHMENT_MOV_RE = r'&lt;attached: (?P<filename>.+\.(mp4|mov|3gp))&gt;'`, used with `re.IGNORECASE`. -/
def ATTACHMENT_MOV_RE : RE :=
  cats [.litCI strAttOpen.data,
        .grp gFile (cats [plusC notNewline, .lit strDot.data, EXT_MOV_RE]),
        .litCI strAttClose.data]

/-- Source: `ATTACHMENT_AUDIO_RE = r'&lt;attached: (?P<filename>.+\.(opus))&gt;'`, used with `re.IGNORECASE`. -/
def ATTACHMENT_AUDIO_RE : RE :=
  cats [.litCI strAttOpen.data,
        .grp gFile (cats [plusC notNewline, .lit strDot.data, .litCI strOpus.data]),
        .litCI strAttClose.data]

/-! ### MD5 (RFC 1321), modelling `hashlib.md5`

All arithmetic is on `Nat` with explicit reduction modulo `2 ^ 32`; the
standard test vectors are checked in `md5_vector_empty` / `md5_vector_abc`
below. -/

def M32 : Nat := 4294967296

/-- Addition modulo `2 ^ 32`. -/
def wadd (a b : Nat) : Nat := (a + b) % M32

/-- Bitwise complement on 32-bit values (argument below `2 ^ 32`). -/
def wnot (a : Nat) : Nat := 4294967295 - a

/-- Left rotation of a 32-bit value by `s` places. -/
def rotl (x s : Nat) : Nat := (x * 2 ^ s) % M32 + x / 2 ^ (32 - s)

/-- Round function F (rounds 0-15). -/
def fF (b c d : Nat) : Nat := Nat.lor (Nat.land b c) (Nat.land (wnot b) d)

/-- Round function G (rounds 16-31). -/
def fG (b c d : Nat) : Nat := Nat.lor (Nat.land d b) (Nat.land (wnot d) c)

/-- Round function H (rounds 32-47). -/
def fH (b c d : Nat) : Nat := Nat.xor b (Nat.xor c d)

/-- Round function I (rounds 48-63). -/
def fI (b c d : Nat) : Nat := Nat.xor c (Nat.lor b (wnot d))

/-- The 64 sine-derived round constants. -/
def md5K : List Nat :=
  [0xd76aa478, 0xe8c7b756, 0x242070db, 0xc1bdceee,
   0xf57c0faf, 0x4787c62a, 0xa8304613, 0xfd469501,
   0x698098d8, 0x8b44f7af, 0xffff5bb1, 0x895cd7be,
   0x6b901122, 0xfd987193, 0xa679438e, 0x49b40821,
   0xf61e2562, 0xc040b340, 0x265e5a51, 0xe9b6c7aa,
   0xd62f105d, 0x02441453, 0xd8a1e681, 0xe7d3fbc8,
   0x21e1cde6, 0xc33707d6, 0xf4d50d87, 0x455a14ed,
   0xa9e3e905, 0xfcefa3f8, 0x676f02d9, 0x8d2a4c8a,
   0xfffa3942, 0x8771f681, 0x6d9d6122, 0xfde5380c,
   0xa4beea44, 0x4bdecfa9, 0xf6bb4b60, 0xbebfbc70,
   0x289b7ec6, 0xeaa127fa, 0xd4ef3085, 0x04881d05,
   0xd9d4d039, 0xe6db99e5, 0x1fa27cf8, 0xc4ac5665,
   0xf4292244, 0x432aff97, 0xab9423a7, 0xfc93a039,
   0x655b59c3, 0x8f0ccc92, 0xffeff47d, 0x85845dd1,
   0x6fa87e4f, 0xfe2ce6e0, 0xa3014314, 0x4e0811a1,
   0xf7537e82, 0xbd3af235, 0x2ad7d2bb, 0xeb86d391]

/-- The 64 per-round shift amounts. -/
def md5S : List Nat :=
  [7, 12, 17, 22, 7, 12, 17, 22, 7, 12, 17, 22, 7, 12, 17, 22,
   5, 9, 14, 20, 5, 9, 14, 20, 5, 9, 14, 20, 5, 9, 14, 20,
   4, 11, 16, 23, 4, 11, 16, 23, 4, 11, 16, 23, 4, 11, 16, 23,
   6, 10, 15, 21, 6, 10, 15, 21, 6, 10, 15, 21, 6, 10, 15, 21]

/-- Message-word index used in round `i`. -/
def gIdx (i : Nat) : Nat :=
  if i < 16 then i else if i < 32 then (5 * i + 1) % 16
  else if i < 48 then (3 * i + 5) % 16 else (7 * i) % 16

/-- Round function selected for round `i`. -/
def fRound (i b c d : Nat) : Nat :=
  if i < 16 then fF b c d else if i < 32 then fG b c d
  else if i < 48 then fH b c d else fI b c d

/-- Little-endian 32-bit word `j` of 64-byte block `blk` of the byte list. -/
def md5Word (bytes : List Nat) (blk j : Nat) : Nat :=
  bytes.getD (64 * blk + 4 * j) 0 + 256 * bytes.getD (64 * blk + 4 * j + 1) 0 +
    65536 * bytes.getD (64 * blk + 4 * j + 2) 0 +
    16777216 * bytes.getD (64 * blk + 4 * j + 3) 0

/-- One of the 64 rounds of a block. -/
def md5Step (bytes : List Nat) (blk : Nat) (st : Nat × Nat × Nat × Nat) (i : Nat) :
    Nat × Nat × Nat × Nat :=
  match st with
  | (a, b, c, d) =>
    let t := wadd (wadd (wadd a (fRound i b c d)) (md5K.getD i 0))
      (md5Word bytes blk (gIdx i))
    (d, wadd b (rotl t (md5S.getD i 0)), b, c)

/-- Process 64-byte block `blk`, adding the round result to the state. -/
def md5Block (bytes : List Nat) (st : Nat × Nat × Nat × Nat) (blk : Nat) :
    Nat × Nat × Nat × Nat :=
  match st, (List.range 64).foldl (md5Step bytes blk) st with
  | (a0, b0, c0, d0), (a, b, c, d) => (wadd a0 a, wadd b0 b, wadd c0 c, wadd d0 d)

/-- A `Nat` below `2 ^ 64` as eight little-endian bytes. -/
def le64 (n : Nat) : List Nat :=
  [n % 256, n / 256 % 256, n / 65536 % 256, n / 16777216 % 256,
   n / 4294967296 % 256, n / 1099511627776 % 256,
   n / 281474976710656 % 256, n / 72057594037927936 % 256]

/-- A 32-bit value as four little-endian bytes. -/
def le32 (n : Nat) : List Nat := [n % 256, n / 256 % 256, n / 65536 % 256, n / 16777216 % 256]

/-- MD5 padding: a 0x80 byte, zeros to 56 mod 64, the bit length little-endian. -/
def md5Pad (msg : List Nat) : List Nat :=
  msg ++ [128] ++ List.replicate ((120 - (msg.length + 1) % 64) % 64) 0 ++
    le64 (8 * msg.length % 18446744073709551616)

/-- The 16-byte MD5 digest of a byte list. -/
def md5Digest (msg : List Nat) : List Nat :=
  match (List.range ((md5Pad msg).length / 64)).foldl (md5Block (md5Pad msg))
      (0x67452301, 0xefcdab89, 0x98badcfe, 0x10325476) with
  | (a, b, c, d) => le32 a ++ le32 b ++ le32 c ++ le32 d

/-- The digest read as an unsigned big-endian integer — Python's
`int.from_bytes(hash.digest(), byteorder='big', signed=False)`. -/
def md5Int (msg : List Nat) : Nat := (md5Digest msg).foldl (fun acc b => acc * 256 + b) 0

/-- UTF-8 encoding of one character (code point to bytes). -/
def utf8Char (c : Char) : List Nat :=
  let n := c.toNat
  if n < 128 then [n]
  else if n < 2048 then [192 + n / 64, 128 + n % 64]
  else if n < 65536 then [224 + n / 4096, 128 + n / 64 % 64, 128 + n % 64]
  else [240 + n / 262144, 128 + n / 4096 % 64, 128 + n / 64 % 64, 128 + n % 64]

/-- UTF-8 bytes of a string — Python's `userName.encode('utf-8')`. -/
def utf8Bytes (s : String) : List Nat := s.data.flatMap utf8Char

/-! ### Color assignment (`getColor`) -/

def strHslPre : String := "hsl("
def strHslSuf : String := ",76%, 36%)"

/-- Hue: the MD5 digest of the UTF-8 author name, big-endian, modulo 360. -/
def hue (userName : String) : Nat := md5Int (utf8Bytes userName) % 360

/-- The color string built by the source's template `"hsl($hue,76%, 36%)"`. -/
def colorStr (userName : String) : String := strHslPre ++ Nat.repr (hue userName) ++ strHslSuf

/-- The global memo table `colorLUT` (author name to color string). -/
abbrev ColorLUT := List (String × String)

/-- Membership lookup modelling `userName in colorLUT` / `colorLUT[userName]`. -/
def lookupLUT : ColorLUT → String → Option String
  | [], _ => none
  | (k, v) :: rest, u => if k = u then some v else lookupLUT rest u

/-- Source `getColor`: return the memoized color if present, else compute the
MD5-derived hsl string and record it.  The mutable global `colorLUT` is passed
and returned explicitly. -/
def getColor (userName : String) (lut : ColorLUT) : String × ColorLUT :=
  match lookupLUT lut userName with
  | some v => (v, lut)
  | none => (colorStr userName, (userName, colorStr userName) :: lut)

/-! ### Content sanitization (`massageBody`) -/

def strAmpEnt : String := "&amp;"
def strLtEnt : String := "&lt;"
def strGtEnt : String := "&gt;"
def strBr : String := "<br>"
def strAOpen : String := "<a href=\""
def strAMid : String := "\">"
def strAClose : String := "</a>"
def strImgMid : String := "\"><img loading=lazy src=\""
def strImgClose : String := "\"></a>"
def strMovMid : String := "\"><div class=\"container\"><video loading=lazy src=\""
def strMovClose : String := "\"></video><div class=\"centered\">PLAY</div></div></a>"
def strAudMid : String := "\"><audio loading=lazy controls><source src=\""
def strAudClose : String := "\" /></audio></a>"

/-- Source: `re.sub(r'&', "&amp;", body)` (single-character pattern). -/
def escAmp : List Char → List Char
  | [] => []
  | c :: s => (if c == chAmp then strAmpEnt.data else [c]) ++ escAmp s

/-- Source: `re.sub(r'<', "&lt;", body)`. -/
def escLt : List Char → List Char
  | [] => []
  | c :: s => (if c == chLt then strLtEnt.data else [c]) ++ escLt s

/-- Source: `re.sub(r'>', "&gt;", body)`. -/
def escGt : List Char → List Char
  | [] => []
  | c :: s => (if c == chGt then strGtEnt.data else [c]) ++ escGt s

/-- Source: `re.sub(r'\n', '<br>', body)`. -/
def brSub : List Char → List Char
  | [] => []
  | c :: s => (if c == chNl then strBr.data else [c]) ++ brSub s

/-- Replacement `r'<a href="\g<link>">\g<link></a>'`. -/
def linkTmpl (caps : Caps) : List Char :=
  strAOpen.data ++ capGet caps gLink ++ strAMid.data ++ capGet caps gLink ++ strAClose.data

/-- Replacement `r'<a href="\g<filename>"><img loading=lazy src="\g<filename>"></a>'`. -/
def imgTmpl (caps : Caps) : List Char :=
  strAOpen.data ++ capGet caps gFile ++ strImgMid.data ++ capGet caps gFile ++ strImgClose.data

/-- Replacement for the video attachment (anchor around a video element with a
PLAY overlay). -/
def movTmpl (caps : Caps) : List Char :=
  strAOpen.data ++ capGet caps gFile ++ strMovMid.data ++ capGet caps gFile ++ strMovClose.data

/-- Replacement for the audio attachment (anchor around an audio element). -/
def audTmpl (caps : Caps) : List Char :=
  strAOpen.data ++ capGet caps gFile ++ strAudMid.data ++ capGet caps gFile ++ strAudClose.data

/-- The mutually exclusive attachment substitution: the `if re.search ... elif
re.search ... elif re.search ...` cascade of `massageBody`, image first, then
video, then audio. -/
def attachStage (b : List Char) : List Char :=
  if reSearch ATTACHMENT_IMG_RE b then subAll ATTACHMENT_IMG_RE imgTmpl b
  else if reSearch ATTACHMENT_MOV_RE b then subAll ATTACHMENT_MOV_RE movTmpl b
  else if reSearch ATTACHMENT_AUDIO_RE b then subAll ATTACHMENT_AUDIO_RE audTmpl b
  else b

/-- Source `massageBody` on the body's character list: escape `&`, `<`, `>` (in
that order), linkify URLs, apply the attachment cascade, convert newlines. -/
def massageL (body : List Char) : List Char :=
  brSub (attachStage (subAll LINK_RE linkTmpl (escGt (escLt (escAmp body)))))

/-- Source `massageBody` (string level). -/
def massageBody (body : String) : String := String.mk (massageL body.data)

/-! ### Line classification (`ParseLine`) and assembly (`IdentifyMessages`) -/

/-- The uncaught Python exceptions the modelled code can raise: indexing
`struct['body'][0]` on an empty body. -/
inductive PyErr where
  | indexError : PyErr
deriving DecidableEq

/-- The message dictionary built by `ParseLine`.  `color` is an `Option`
because the first-line branch of the source builds its dict without a
`'color'` key.  `date` carries the exact string the source hands to the
external `dateutil` normalizer (`"%s %s" % (date, time)`). -/
structure Msg where
  date : String
  user : String
  color : Option String
  body : String
  dir : String
deriving DecidableEq

def strNobody : String := "nobody"
def strLtr : String := "ltr"
def strRtl : String := "rtl"

/-- Lines 79-84 of the source: both group patterns are tried in order and each
match overwrites the running conversation name with its `groupName` capture. -/
def groupNameUpdate (line : String) (groupName : String) : String :=
  let gn1 := match reMatch GROUP_RE_1 line.data with
    | some caps => String.mk (capGet caps gGroup)
    | none => groupName
  match reMatch GROUP_RE_2 line.data with
  | some caps => String.mk (capGet caps gGroup)
  | none => gn1

/-- Lines 115-124 of the source, shared by both match modes: sample the first
character of the raw captured body (raising `IndexError` when the body is
empty), compare its bidirectional class with `'R'`, then sanitize the body.
The `getColor` memo is value-transparent (`getColor_memo_eq` below), so the
color argument is the pure `colorStr` value. -/
def mkMsg (dateTok timeTok : List Char) (user : String) (color : Option String)
    (body : List Char) (gn : String) : Except PyErr (Option Msg × String) :=
  match body with
  | [] => .error .indexError
  | c :: _ =>
    .ok (some { date := String.mk dateTok ++ strSpace ++ String.mk timeTok,
                user := user, color := color,
                body := String.mk (massageL body),
                dir := if bidirectional c = strR then strRtl else strLtr }, gn)

/-- Source `ParseLine`: empty lines are skipped; the group patterns update the
conversation name; then `WHATSAPP_RE` and, failing that, `FIRSTLINE_RE` are
tried, the first-line form tagging the author `"nobody"` and (unlike the full
form) no color. -/
def ParseLine (line : String) (groupName : String) : Except PyErr (Option Msg × String) :=
  if line.length = 0 then .ok (none, groupName)
  else
    let gn := groupNameUpdate line groupName
    match reMatch WHATSAPP_RE line.data with
    | some caps =>
      mkMsg (capGet caps gDate) (capGet caps gTime) (String.mk (capGet caps gName))
        (some (colorStr (String.mk (capGet caps gName)))) (capGet caps gBody) gn
    | none =>
      match reMatch FIRSTLINE_RE line.data with
      | some caps =>
        mkMsg (capGet caps gDate) (capGet caps gTime) strNobody none (capGet caps gBody) gn
      | none => .ok (none, gn)

/-- The loop of `IdentifyMessages`: fold `ParseLine` over the records,
appending each produced message and threading the conversation name; an
uncaught exception aborts the whole run. -/
def IdentifyMessagesLoop : List String → String → Except PyErr (List Msg × String)
  | [], gn => .ok ([], gn)
  | l :: ls, gn =>
    match ParseLine l gn with
    | .error e => .error e
    | .ok (none, gn2) => IdentifyMessagesLoop ls gn2
    | .ok (some m, gn2) =>
      (IdentifyMessagesLoop ls gn2).map (fun p => (m :: p.1, p.2))

/-- Source `IdentifyMessages(lines, fileName)`: the conversation-name
accumulator starts at `fileName` (`main` passes `args.input_file`, the path
exactly as given on the command line). -/
def IdentifyMessages (lines : List String) (fileName : String) :
    Except PyErr (List Msg × String) :=
  IdentifyMessagesLoop lines fileName

/-! ### Auxiliary definitions used only to state claims -/

/-- One classification slot per input record, in input order (the reference
point for the order-preservation claim): `some` for a record that classifies
as a message, `none` for a skipped one, threading the conversation name
exactly as the loop does. -/
def classifyEachRecord : List String → String → Except PyErr (List (Option Msg) × String)
  | [], gn => .ok ([], gn)
  | l :: ls, gn =>
    match ParseLine l gn with
    | .error e => .error e
    | .ok (om, gn2) => (classifyEachRecord ls gn2).map (fun p => (om :: p.1, p.2))

/-- Model of `os.path.basename` for slash-separated paths (used only to state
the claim about the conversation name's initial value). -/
def basename (s : String) : String := String.mk (s.data.foldl
  (fun acc c => if c == chSlash then [] else acc ++ [c]) [])

/-- Substring occurrence test (`pat` occurs contiguously in `s`). -/
def isPreL : List Char → List Char → Bool
  | [], _ => true
  | _ :: _, [] => false
  | p :: ps, c :: cs => p == c && isPreL ps cs

/-- Containment of `pat` as a contiguous substring of `s`. -/
def containsSub (pat : List Char) : List Char → Bool
  | [] => isPreL pat []
  | c :: s => isPreL pat (c :: s) || containsSub pat s

/-- The message of a `ParseLine` result, when one was produced. -/
def parsedMsg (r : Except PyErr (Option Msg × String)) : Option Msg :=
  match r with
  | .ok (some m, _) => some m
  | _ => none

/-- The conversation name of a non-raising `ParseLine` result. -/
def parsedName (r : Except PyErr (Option Msg × String)) : Option String :=
  match r with
  | .ok (_, gn) => some gn
  | .error _ => none

/-- The final conversation name of an `IdentifyMessages` run. -/
def finalName (r : Except PyErr (List Msg × String)) : Option String :=
  match r with
  | .ok (_, gn) => some gn
  | .error _ => none

/-! ### Claim-statement helpers and concrete inputs -/

/-- Invariant of the color memo: every stored entry is the computed color of
its key (holds for the empty table a run starts with, and is preserved by
`getColor`). -/
def lutWF (lut : ColorLUT) : Prop := ∀ p, p ∈ lut → p.2 = colorStr p.1

/-- The line matches the given message grammar with an empty body capture. -/
def matchedEmptyBody (r : RE) (line : String) : Bool :=
  match reMatch r line.data with
  | some caps => (capGet caps gBody).isEmpty
  | none => false

/-- The sanitizer state after escaping and linkification, on which the
attachment markers are searched. -/
def linkStage (b : List Char) : List Char :=
  subAll LINK_RE linkTmpl (escGt (escLt (escAmp b)))

/-- No literal `<` character occurs in the list. -/
def noLt (s : List Char) : Bool := s.all (fun c => !(c == chLt))

def strAlice : String := "Alice"
def strChat : String := "chat.txt"
def strDT : String := "12/08/2021 14:03"
def strPrior : String := "prior name"
def strHiking : String := "Hiking Crew"
def strPathDir : String := "exports/chat.txt"
def strAliceColor : String := "hsl(288,76%, 36%)"
def strClaimHslMid : String := ", 76%, 36%)"
def strHelloEsc : String := "Hello &lt;there&gt;"
def strJoined : String := "somebody joined"
def strShalom : String := "שלום"
def strMovMarker : String := "&lt;attached: b.mp4&gt;"
def strCreatedHC : String := "created group “Hiking Crew”"

/-- First letter (MEEM) of the Arabic test body; bidirectional class AL. -/
def chMeem : Char := 'م'

def strEmpty : String := ""
def strAbc : String := "abc"

def rec6 : String := "12/08/2021, 14:03 - Alice: Hello <there>"
def recFirstLine : String := "12/08/2021, 14:03 - somebody joined"
def recJunk : String := "random junk line"
def recGroupMid : String := "12/08/2021, 14:03 - Alice created group “Hiking Crew”"
def recGroupStart : String := "created group “Hiking Crew”"
def recArabic : String := "12/08/2021, 14:03 - مرحبا"
def recHebrew : String := "12/08/2021, 14:03 - שלום"
def recEmptyBody : String := "12/08/2021, 14:03 - Alice: "
def bodyBothMarkers : String := "<attached: a.jpg> <attached: b.mp4>"
def bodyMovFirst : String := "<attached: b.mp4> <attached: a.jpg>"

/-- The message produced for `recFirstLine`. -/
def msgFirstLine : Msg :=
  { date := strDT, user := strNobody, color := none, body := strJoined, dir := strLtr }

/-- The message produced for `recHebrew`. -/
def msgHebrew : Msg :=
  { date := strDT, user := strNobody, color := none, body := strShalom, dir := strRtl }

/-! ### Anchors for the MD5 model (RFC 1321 test vectors) -/

/-- MD5 of the empty message, as an unsigned big-endian integer. -/
theorem md5_vector_empty : md5Int (utf8Bytes strEmpty) = 0xd41d8cd98f00b204e9800998ecf8427e := by rfl

/-- MD5 of the three-byte message abc. -/
theorem md5_vector_abc : md5Int (utf8Bytes strAbc) = 0x900150983cd24fb0d6963f7d28e17f72 := by rfl

/-! ### Color assignment -/

/-- A well-formed memo lookup only ever returns the computed color. -/
theorem lookupLUT_wf {lut : ColorLUT} {u v : String} (h : lutWF lut)
    (hl : lookupLUT lut u = some v) : v = colorStr u := by
  induction lut with
  | nil => simp [lookupLUT] at hl
  | cons p rest ih =>
    obtain ⟨k, w⟩ := p
    by_cases hk : k = u
    · have hw := h (k, w) (List.mem_cons_self _ _)
      simp only [lookupLUT, if_pos hk] at hl
      cases hl
      simpa [hk] using hw
    · simp only [lookupLUT, if_neg hk] at hl
      exact ih (fun q hq => h q (List.mem_cons_of_mem _ hq)) hl

/-- The memo is value-transparent: with a well-formed table, `getColor`
returns the pure `colorStr` value. -/
theorem getColor_memo_eq {lut : ColorLUT} (u : String) (h : lutWF lut) :
    (getColor u lut).1 = colorStr u := by
  unfold getColor
  cases hl : lookupLUT lut u with
  | none => rfl
  | some v => simpa using lookupLUT_wf h hl

/-- C2 counterexample: the color actually produced for the author Alice is
`hsl(288,76%, 36%)` — no space after the first comma — and no hue in
`[0, 360)` makes the claimed pattern `hsl(<integer>, 76%, 36%)` (with a space
after the first comma) equal to it. -/
theorem getColor_format_counterexample :
    (getColor strAlice []).1 = strAliceColor ∧
    ∀ n : Nat, n < 360 → strHslPre ++ Nat.repr n ++ strClaimHslMid ≠ strAliceColor := by
  refine ⟨rfl, ?_⟩
  decide

/-- C2 (amended): within one run (any reachable, hence well-formed, memo
table) two calls to `getColor` for the same author return identical strings,
and the returned string is exactly `hsl(` ++ hue ++ `,76%, 36%)` — no space
after the first comma — where the hue is the author's UTF-8 MD5 digest read
as an unsigned big-endian integer, reduced modulo 360. -/
theorem getColor_deterministic_format (a : String) (lut : ColorLUT) (h : lutWF lut) :
    (getColor a ((getColor a lut).2)).1 = (getColor a lut).1 ∧
    (getColor a lut).1 = strHslPre ++ Nat.repr (hue a) ++ strHslSuf ∧
    hue a = md5Int (utf8Bytes a) % 360 ∧ hue a < 360 := by
  have hfmt : (getColor a lut).1 = colorStr a := getColor_memo_eq a h
  refine ⟨?_, hfmt, rfl, Nat.mod_lt _ (by norm_num)⟩
  unfold getColor
  cases hl : lookupLUT lut a with
  | none => simp [lookupLUT]
  | some v => simp [hl]

/-- Witness for `getColor_deterministic_format` at the author Alice and the
empty memo table a run starts with. -/
theorem getColor_deterministic_format_witness :
    (getColor strAlice ((getColor strAlice []).2)).1 = (getColor strAlice []).1 ∧
    (getColor strAlice []).1 = strHslPre ++ Nat.repr (hue strAlice) ++ strHslSuf ∧
    hue strAlice = md5Int (utf8Bytes strAlice) % 360 ∧ hue strAlice < 360 :=
  getColor_deterministic_format strAlice [] (by intro p hp; cases hp)

/-! ### Order preservation -/

/-- C5: the assembler's message list is exactly the per-record classification
outcomes, one slot per input record in input order, with the skipped records
filtered out — i.e. the successfully classified records in their original
relative order; no re-sorting of any kind happens. -/
theorem identifyMessages_order (lines : List String) (fileName : String) :
    IdentifyMessages lines fileName =
      (classifyEachRecord lines fileName).map (fun p => (p.1.filterMap id, p.2)) := by
  unfold IdentifyMessages
  induction lines generalizing fileName with
  | nil => rfl
  | cons l ls ih =>
    simp only [IdentifyMessagesLoop, classifyEachRecord]
    cases hp : ParseLine l fileName with
    | error e => rfl
    | ok r =>
      obtain ⟨om, gn2⟩ := r
      cases om with
      | none =>
        dsimp only
        rw [ih gn2]
        cases hc : classifyEachRecord ls gn2 with
        | error e => rfl
        | ok q => simp [Except.map]
      | some m =>
        dsimp only
        rw [ih gn2]
        cases hc : classifyEachRecord ls gn2 with
        | error e => rfl
        | ok q => simp [Except.map]

/-! ### Unrecognized records -/

/-- C4: a record matching neither the sender grammar, the first-line grammar,
nor either group-name pattern produces no message, leaves the conversation
name unchanged, and the assembler simply moves past it. -/
theorem unrecognized_record_skipped (line gn : String) (ls : List String)
    (h1 : reMatch GROUP_RE_1 line.data = none) (h2 : reMatch GROUP_RE_2 line.data = none)
    (h3 : reMatch WHATSAPP_RE line.data = none) (h4 : reMatch FIRSTLINE_RE line.data = none) :
    ParseLine line gn = .ok (none, gn) ∧
    IdentifyMessagesLoop (line :: ls) gn = IdentifyMessagesLoop ls gn := by
  have hp : ParseLine line gn = .ok (none, gn) := by
    unfold ParseLine
    by_cases hl : line.length = 0
    · simp [hl]
    · simp [hl, groupNameUpdate, h1, h2, h3, h4]
  exact ⟨hp, by simp only [IdentifyMessagesLoop, hp]⟩

/-- Witness for `unrecognized_record_skipped` on a record no grammar matches. -/
theorem unrecognized_record_skipped_witness :
    ParseLine recJunk strChat = .ok (none, strChat) ∧
    IdentifyMessagesLoop (recJunk :: []) strChat = IdentifyMessagesLoop [] strChat :=
  unrecognized_record_skipped recJunk strChat [] rfl rfl rfl rfl

/-! ### Group-name records -/

/-- C7 counterexample: a realistic export record that merely contains the
group-created phrase (after its timestamp) does not update the conversation
name — `GROUP_RE_1` is applied with `re.match`, anchored at the record's
start — and, far from yielding no message, it classifies as a first-line-form
message. -/
theorem group_created_contains_counterexample :
    containsSub strCreatedHC.data recGroupMid.data = true ∧
    parsedName (ParseLine recGroupMid strPrior) = some strPrior ∧
    strPrior ≠ strHiking ∧
    (parsedMsg (ParseLine recGroupMid strPrior)).isSome = true :=
  ⟨rfl, rfl, by decide, rfl⟩

/-- C7 (amended): a record that begins with `created group “Hiking Crew”`
(typographic quotation marks, as the source pattern and WhatsApp's exports
use) sets the conversation name to Hiking Crew — the resolved name for the
rest of the stream — while yielding no message itself. -/
theorem group_created_at_start_updates_name (gn : String) (ls : List String) :
    ParseLine recGroupStart gn = .ok (none, strHiking) ∧
    IdentifyMessagesLoop (recGroupStart :: ls) gn = IdentifyMessagesLoop ls strHiking := by
  have hp : ParseLine recGroupStart gn = .ok (none, strHiking) := rfl
  exact ⟨hp, by simp only [IdentifyMessagesLoop, hp]⟩

/-! ### The first-line form -/

/-- C8 counterexample: the first-line-form record classifies with the sentinel
author nobody, but the produced message has no color at all — the source's
first-line branch builds its dict without a color key, so the color assigner
is never consulted for it. -/
theorem firstline_no_color_counterexample :
    (parsedMsg (ParseLine recFirstLine strChat)).map Msg.user = some strNobody ∧
    (parsedMsg (ParseLine recFirstLine strChat)).map Msg.color = some none :=
  ⟨rfl, rfl⟩

/-- C8 (amended): every record that classifies via the first-line grammar
(the sender grammar not matching) yields a message whose author is the
sentinel nobody and whose color is absent — the color assigner is not invoked
on this branch. -/
theorem firstline_nobody_no_color (line gn gn2 : String) (m : Msg)
    (hW : reMatch WHATSAPP_RE line.data = none)
    (h : ParseLine line gn = .ok (some m, gn2)) :
    m.user = strNobody ∧ m.color = none := by
  unfold ParseLine at h
  by_cases hl : line.length = 0
  · simp [hl] at h
  · simp only [if_neg hl, hW] at h
    cases hf : reMatch FIRSTLINE_RE line.data with
    | none => rw [hf] at h; cases h
    | some caps =>
      rw [hf] at h
      unfold mkMsg at h
      dsimp only at h
      cases hb : capGet caps gBody with
      | nil => rw [hb] at h; cases h
      | cons c bs =>
        rw [hb] at h
        simp only [Except.ok.injEq, Prod.mk.injEq, Option.some.injEq] at h
        obtain ⟨hm, -⟩ := h
        subst hm
        exact ⟨rfl, rfl⟩

/-- Witness for `firstline_nobody_no_color` at `recFirstLine`. -/
theorem firstline_nobody_no_color_witness :
    msgFirstLine.user = strNobody ∧ msgFirstLine.color = none :=
  firstline_nobody_no_color recFirstLine strChat strChat msgFirstLine rfl rfl

/-! ### Conversation-name initialization -/

/-- The shared message-construction tail either raises (empty body) or returns
one message with the given conversation name. -/
theorem mkMsg_cases (d t : List Char) (u : String) (col : Option String)
    (body : List Char) (gn : String) :
    mkMsg d t u col body gn = .error .indexError ∨
      ∃ m, mkMsg d t u col body gn = .ok (some m, gn) := by
  cases body with
  | nil => exact .inl rfl
  | cons c bs => exact .inr ⟨_, rfl⟩

/-- When neither group pattern fires, `ParseLine` either raises or returns the
conversation name it was given. -/
theorem parseLine_name_unchanged (line gn : String)
    (h1 : reMatch GROUP_RE_1 line.data = none) (h2 : reMatch GROUP_RE_2 line.data = none) :
    ParseLine line gn = .error .indexError ∨
      ∃ om, ParseLine line gn = .ok (om, gn) := by
  unfold ParseLine
  by_cases hl : line.length = 0
  · exact .inr ⟨none, by simp [hl]⟩
  · have hg : groupNameUpdate line gn = gn := by
      simp [groupNameUpdate, h1, h2]
    simp only [if_neg hl, hg]
    cases hw : reMatch WHATSAPP_RE line.data with
    | some caps =>
      rcases mkMsg_cases (capGet caps gDate) (capGet caps gTime)
          (String.mk (capGet caps gName))
          (some (colorStr (String.mk (capGet caps gName)))) (capGet caps gBody) gn with
        he | ⟨m, hm⟩
      · exact .inl he
      · exact .inr ⟨some m, hm⟩
    | none =>
      cases hf : reMatch FIRSTLINE_RE line.data with
      | some caps =>
        rcases mkMsg_cases (capGet caps gDate) (capGet caps gTime) strNobody none
            (capGet caps gBody) gn with he | ⟨m, hm⟩
        · exact .inl he
        · exact .inr ⟨some m, hm⟩
      | none => exact .inr ⟨none, rfl⟩

/-- C9 (amended): the conversation-name accumulator is initialized to the
file name exactly as handed to the assembler — `main` passes
`args.input_file`, the command-line path, not its base name — and when no
record matches either group pattern the run (if it does not abort) ends with
that same value. -/
theorem conversation_name_initial (lines : List String) (fileName : String)
    (hng : ∀ l ∈ lines, reMatch GROUP_RE_1 l.data = none ∧ reMatch GROUP_RE_2 l.data = none) :
    finalName (IdentifyMessages lines fileName) = none ∨
      finalName (IdentifyMessages lines fileName) = some fileName := by
  unfold IdentifyMessages
  induction lines generalizing fileName with
  | nil => exact .inr rfl
  | cons l ls ih =>
    obtain ⟨hg1, hg2⟩ := hng l (List.mem_cons_self _ _)
    have ihr := ih fileName (fun x hx => hng x (List.mem_cons_of_mem _ hx))
    rcases parseLine_name_unchanged l fileName hg1 hg2 with he | ⟨om, hok⟩
    · left
      simp only [IdentifyMessagesLoop, he, finalName]
    · cases om with
      | none => simpa only [IdentifyMessagesLoop, hok] using ihr
      | some m =>
        simp only [IdentifyMessagesLoop, hok]
        cases hr : IdentifyMessagesLoop ls fileName with
        | error e => left; rfl
        | ok p =>
          rcases ihr with hn | hs
          · rw [hr] at hn; cases hn
          · right
            rw [hr] at hs
            simpa [Except.map, finalName] using hs

/-- Witness for `conversation_name_initial` on a one-record stream with no
group-name record. -/
theorem conversation_name_initial_witness :
    finalName (IdentifyMessages [recFirstLine] strPathDir) = none ∨
      finalName (IdentifyMessages [recFirstLine] strPathDir) = some strPathDir :=
  conversation_name_initial [recFirstLine] strPathDir
    (by intro l hl; cases hl with
        | head => exact ⟨rfl, rfl⟩
        | tail _ hx => cases hx)

/-- C9 counterexample: the accumulator starts (and, with no group-name
record, ends) at the full input path, which differs from the base name the
claim asserts. -/
theorem conversation_name_basename_counterexample :
    IdentifyMessages [] strPathDir = .ok ([], strPathDir) ∧
    finalName (IdentifyMessages [recFirstLine] strPathDir) = some strPathDir ∧
    basename strPathDir ≠ strPathDir ∧ basename strPathDir = strChat :=
  ⟨rfl, rfl, by decide, rfl⟩

/-! ### Empty captured body -/

/-- C10: a non-empty record that one of the message grammars matches with an
empty body capture makes `ParseLine` raise the uncaught IndexError while
indexing the body's first character, and therefore aborts the whole run. -/
theorem empty_body_aborts_run (line gn : String) (hne : line.length ≠ 0)
    (h : matchedEmptyBody WHATSAPP_RE line = true ∨
         (reMatch WHATSAPP_RE line.data = none ∧ matchedEmptyBody FIRSTLINE_RE line = true)) :
    ParseLine line gn = .error .indexError ∧
    ∀ ls, IdentifyMessagesLoop (line :: ls) gn = .error .indexError := by
  have hp : ParseLine line gn = .error .indexError := by
    unfold ParseLine
    rw [if_neg hne]
    rcases h with hb | ⟨hw, hb⟩
    · unfold matchedEmptyBody at hb
      cases hw : reMatch WHATSAPP_RE line.data with
      | none => rw [hw] at hb; cases hb
      | some caps =>
        dsimp only
        unfold mkMsg
        cases hcb : capGet caps gBody with
        | nil => rfl
        | cons c bs =>
          rw [hw] at hb
          dsimp only at hb
          rw [hcb] at hb
          simp at hb
    · unfold matchedEmptyBody at hb
      rw [hw]
      cases hf : reMatch FIRSTLINE_RE line.data with
      | none => rw [hf] at hb; cases hb
      | some caps =>
        dsimp only
        unfold mkMsg
        cases hcb : capGet caps gBody with
        | nil => rfl
        | cons c bs =>
          rw [hf] at hb
          dsimp only at hb
          rw [hcb] at hb
          simp at hb
  exact ⟨hp, fun ls => by simp only [IdentifyMessagesLoop, hp]⟩

/-- Witness for `empty_body_aborts_run`: the sender grammar matches the
record with nothing after the author separator, capturing an empty body. -/
theorem empty_body_aborts_run_witness :
    ParseLine recEmptyBody strChat = .error .indexError ∧
    ∀ ls, IdentifyMessagesLoop (recEmptyBody :: ls) strChat = .error .indexError :=
  empty_body_aborts_run recEmptyBody strChat (by decide) (.inl rfl)

/-! ### Escaping order -/

/-- After the `<` escape, no literal `<` remains. -/
theorem escLt_noLt (s : List Char) : noLt (escLt s) = true := by
  induction s with
  | nil => rfl
  | cons c t ih =>
    by_cases hc : c = chLt
    · subst hc
      show noLt (strLtEnt.data ++ escLt t) = true
      simp only [noLt, List.all_append, Bool.and_eq_true]
      exact ⟨by decide, ih⟩
    · have hb : (c == chLt) = false := beq_eq_false_iff_ne.mpr hc
      show noLt ((if c == chLt then strLtEnt.data else [c]) ++ escLt t) = true
      rw [hb]
      simp only [if_false, noLt, List.all_append, Bool.and_eq_true]
      refine ⟨?_, ih⟩
      simp [hb]

/-- The `>` escape introduces no `<`. -/
theorem escGt_noLt (s : List Char) (h : noLt s = true) : noLt (escGt s) = true := by
  induction s with
  | nil => rfl
  | cons c t ih =>
    simp only [noLt, List.all_cons, Bool.and_eq_true] at h
    obtain ⟨hc, ht⟩ := h
    by_cases hg : c = chGt
    · subst hg
      show noLt (strGtEnt.data ++ escGt t) = true
      simp only [noLt, List.all_append, Bool.and_eq_true]
      exact ⟨by decide, ih ht⟩
    · have hb : (c == chGt) = false := beq_eq_false_iff_ne.mpr hg
      show noLt ((if c == chGt then strGtEnt.data else [c]) ++ escGt t) = true
      rw [hb]
      simp only [if_false, noLt, List.all_append, Bool.and_eq_true]
      refine ⟨?_, ih ht⟩
      simpa using hc

/-- C6: the HTML-significant characters are escaped before linkification and
attachment substitution (the sanitizer is exactly that composition, in that
order), after the escaping stage no literal `<` from the input survives, and
on the concrete record the claim quotes the pipeline produces the author
Alice, body `Hello &lt;there&gt;` and direction ltr. -/
theorem escape_first_and_example :
    (∀ b : List Char,
        massageL b = brSub (attachStage (subAll LINK_RE linkTmpl (escGt (escLt (escAmp b))))) ∧
        noLt (escGt (escLt (escAmp b))) = true) ∧
    ((parsedMsg (ParseLine rec6 strChat)).map Msg.user = some strAlice ∧
     (parsedMsg (ParseLine rec6 strChat)).map Msg.body = some strHelloEsc ∧
     (parsedMsg (ParseLine rec6 strChat)).map Msg.dir = some strLtr) :=
  ⟨fun b => ⟨rfl, escGt_noLt _ (escLt_noLt (escAmp b))⟩, rfl, rfl, rfl⟩

/-! ### Attachment substitution precedence -/

/-- C3 counterexample: on a body where the video marker precedes the image
marker, both markers are found, only the image substitution fires — but its
greedy filename match absorbs the video marker, which therefore does not
survive untouched in the output. -/
theorem attachment_video_marker_touched_counterexample :
    reSearch ATTACHMENT_IMG_RE (linkStage bodyMovFirst.data) = true ∧
    reSearch ATTACHMENT_MOV_RE (linkStage bodyMovFirst.data) = true ∧
    containsSub strMovMarker.data (linkStage bodyMovFirst.data) = true ∧
    containsSub strMovMarker.data (massageL bodyMovFirst.data) = false :=
  ⟨rfl, rfl, rfl, rfl⟩

/-- C3 (amended): when both an image-extension and a video-extension
attachment marker occur in the (escaped, linkified) body, only the image
substitution is applied — the video and audio branches are skipped — though
the image pattern's greedy filename may itself consume the video marker's
text. -/
theorem attachment_image_precedence (body : List Char)
    (hi : reSearch ATTACHMENT_IMG_RE (linkStage body) = true)
    (_hm : reSearch ATTACHMENT_MOV_RE (linkStage body) = true) :
    massageL body = brSub (subAll ATTACHMENT_IMG_RE imgTmpl (linkStage body)) := by
  unfold massageL attachStage
  unfold linkStage at hi
  rw [hi]
  rfl

/-- Witness for `attachment_image_precedence` on a body carrying one image
marker and one video marker. -/
theorem attachment_image_precedence_witness :
    reSearch ATTACHMENT_IMG_RE (linkStage bodyBothMarkers.data) = true ∧
    reSearch ATTACHMENT_MOV_RE (linkStage bodyBothMarkers.data) = true ∧
    massageL bodyBothMarkers.data =
      brSub (subAll ATTACHMENT_IMG_RE imgTmpl (linkStage bodyBothMarkers.data)) :=
  ⟨rfl, rfl, attachment_image_precedence bodyBothMarkers.data rfl rfl⟩

/-! ### Direction inference: the sanitizer preserves first-character
right-to-left-ness

The source samples the raw captured body's first character, while the claim
speaks of the sanitized body; the lemmas below show the sanitizer maps a
non-empty body to a non-empty body whose first character has the same
R-class-ness, so the two readings agree. -/

/-- A global substitution on a non-empty input yields either the original
head character or, when the pattern matched at position 0 (implying `P`), the
template's fixed head character. -/
theorem subAll_head (r : RE) (t : Caps → List Char) (c : Char) (s : List Char)
    (P : Prop) (hm : ∀ v, mreRun r (c :: s) = some v → P)
    (hd : Char) (ht : ∀ caps, ∃ tl, t caps = hd :: tl) :
    ∃ c2 tl, subAll r t (c :: s) = c2 :: tl ∧ (c2 = c ∨ (P ∧ c2 = hd)) := by
  show ∃ c2 tl, reSubFuel r t ((c :: s).length + 1) (c :: s) = c2 :: tl ∧ _
  cases hr : mreRun r (c :: s) with
  | none =>
    refine ⟨c, reSubFuel r t (s.length + 1) s, ?_, .inl rfl⟩
    simp only [List.length_cons, reSubFuel, hr]
  | some v =>
    obtain ⟨rest, caps⟩ := v
    have hP := hm _ hr
    by_cases hlt : rest.length < (c :: s).length
    · obtain ⟨tl, htc⟩ := ht caps
      refine ⟨hd, tl ++ reSubFuel r t (s.length + 1) rest, ?_, .inr ⟨hP, rfl⟩⟩
      simp only [List.length_cons, reSubFuel, hr, htc]
      rw [if_pos (by simpa using hlt)]
      rfl
    · refine ⟨c, s, ?_, .inl rfl⟩
      simp only [List.length_cons, reSubFuel, hr]
      rw [if_neg (by simpa using hlt)]

/-- A successful anchored link match starts with the letter h. -/
theorem link_match_head (c : Char) (s : List Char) (v : List Char × Caps)
    (h : mreRun LINK_RE (c :: s) = some v) : c = chH := by
  by_contra hc
  have hb : (c == 'h') = false := beq_eq_false_iff_ne.mpr (by simpa [chH] using hc)
  have hs : strHttp.data = chH :: 't' :: 't' :: 'p' :: [] := rfl
  simp only [mreRun, LINK_RE, cats, List.foldr, mre, hs, dropLit, hb, if_false,
    Bool.false_eq_true, reduceIte] at h
  exact Option.noConfusion h

/-- A successful anchored attachment-marker match (any pattern starting with
the case-insensitive literal of the escaped marker opener) starts with a
character whose folded code point is 38, the ampersand. -/
theorem attach_match_head (x y : RE) (c : Char) (s : List Char) (v : List Char × Caps)
    (h : mreRun (cats [.litCI strAttOpen.data, x, y]) (c :: s) = some v) :
    lowN c.toNat = 38 := by
  by_contra hc
  have hb : (lowN c.toNat == lowN '&'.toNat) = false := by
    have h38 : lowN '&'.toNat = 38 := rfl
    rw [h38]
    exact beq_eq_false_iff_ne.mpr hc
  have hs : ∃ ps, strAttOpen.data = chAmp :: ps := ⟨_, rfl⟩
  obtain ⟨ps, hsp⟩ := hs
  simp only [mreRun, cats, List.foldr, mre, hsp, dropLitCI, chAmp, hb, if_false,
    Bool.false_eq_true, reduceIte] at h
  exact Option.noConfusion h

/-- A folded code point of 38 is the ampersand itself. -/
theorem lowN_38 (n : Nat) (h : lowN n = 38) : n = 38 := by
  unfold lowN at h
  split at h
  next hcond =>
    simp only [Bool.and_eq_true, decide_eq_true_eq] at hcond
    omega
  next => exact h

/-- The ampersand escape keeps the head character itself. -/
theorem escAmp_head (c : Char) (s : List Char) : ∃ tl, escAmp (c :: s) = c :: tl := by
  by_cases hc : c = chAmp
  · subst hc
    exact ⟨_, rfl⟩
  · have hb : (c == chAmp) = false := beq_eq_false_iff_ne.mpr hc
    refine ⟨escAmp s, ?_⟩
    show (if c == chAmp then strAmpEnt.data else [c]) ++ escAmp s = c :: escAmp s
    rw [hb]
    rfl

/-- The less-than escape keeps the head's R-class-ness (a `<` head becomes
the non-R `&`). -/
theorem escLt_head (c : Char) (s : List Char) :
    ∃ c2 tl, escLt (c :: s) = c2 :: tl ∧
      (bidirectional c2 = strR ↔ bidirectional c = strR) := by
  by_cases hc : c = chLt
  · subst hc
    exact ⟨chAmp, _, rfl, by decide⟩
  · have hb : (c == chLt) = false := beq_eq_false_iff_ne.mpr hc
    refine ⟨c, escLt s, ?_, Iff.rfl⟩
    show (if c == chLt then strLtEnt.data else [c]) ++ escLt s = c :: escLt s
    rw [hb]
    rfl

/-- The greater-than escape keeps the head's R-class-ness. -/
theorem escGt_head (c : Char) (s : List Char) :
    ∃ c2 tl, escGt (c :: s) = c2 :: tl ∧
      (bidirectional c2 = strR ↔ bidirectional c = strR) := by
  by_cases hc : c = chGt
  · subst hc
    exact ⟨chAmp, _, rfl, by decide⟩
  · have hb : (c == chGt) = false := beq_eq_false_iff_ne.mpr hc
    refine ⟨c, escGt s, ?_, Iff.rfl⟩
    show (if c == chGt then strGtEnt.data else [c]) ++ escGt s = c :: escGt s
    rw [hb]
    rfl

/-- The newline-to-break conversion keeps the head's R-class-ness. -/
theorem brSub_head (c : Char) (s : List Char) :
    ∃ c2 tl, brSub (c :: s) = c2 :: tl ∧
      (bidirectional c2 = strR ↔ bidirectional c = strR) := by
  by_cases hc : c = chNl
  · subst hc
    exact ⟨chLt, _, rfl, by decide⟩
  · have hb : (c == chNl) = false := beq_eq_false_iff_ne.mpr hc
    refine ⟨c, brSub s, ?_, Iff.rfl⟩
    show (if c == chNl then strBr.data else [c]) ++ brSub s = c :: brSub s
    rw [hb]
    rfl

/-- Linkification keeps the head's R-class-ness: the head only changes when a
URL (head h) is wrapped, and then becomes the non-R anchor opener. -/
theorem subLink_head (c : Char) (s : List Char) :
    ∃ c2 tl, subAll LINK_RE linkTmpl (c :: s) = c2 :: tl ∧
      (bidirectional c2 = strR ↔ bidirectional c = strR) := by
  obtain ⟨c2, tl, he, hor⟩ := subAll_head LINK_RE linkTmpl c s (c = chH)
    (fun v hv => link_match_head c s v hv) chLt (fun caps => ⟨_, rfl⟩)
  refine ⟨c2, tl, he, ?_⟩
  rcases hor with hc | ⟨hP, hc⟩
  · subst hc; exact Iff.rfl
  · subst hc; subst hP; decide

/-- The attachment cascade keeps the head's R-class-ness: any substitution
that fires at position 0 starts at an ampersand and writes the non-R anchor
opener. -/
theorem attachStage_head (c : Char) (s : List Char) :
    ∃ c2 tl, attachStage (c :: s) = c2 :: tl ∧
      (bidirectional c2 = strR ↔ bidirectional c = strR) := by
  have hnotR : lowN c.toNat = 38 → ¬ bidirectional c = strR := by
    intro h38
    have hn : c.toNat = 38 := lowN_38 _ h38
    unfold bidirectional
    rw [hn]
    decide
  unfold attachStage
  split_ifs with h1 h2 h3
  · obtain ⟨c2, tl, he, hor⟩ := subAll_head ATTACHMENT_IMG_RE imgTmpl c s
      (lowN c.toNat = 38) (fun v hv => attach_match_head _ _ c s v hv)
      chLt (fun caps => ⟨_, rfl⟩)
    refine ⟨c2, tl, he, ?_⟩
    rcases hor with hc | ⟨hP, hc⟩
    · subst hc; exact Iff.rfl
    · subst hc
      constructor
      · intro hR; exact absurd hR (by decide)
      · intro hR; exact absurd hR (hnotR hP)
  · obtain ⟨c2, tl, he, hor⟩ := subAll_head ATTACHMENT_MOV_RE movTmpl c s
      (lowN c.toNat = 38) (fun v hv => attach_match_head _ _ c s v hv)
      chLt (fun caps => ⟨_, rfl⟩)
    refine ⟨c2, tl, he, ?_⟩
    rcases hor with hc | ⟨hP, hc⟩
    · subst hc; exact Iff.rfl
    · subst hc
      constructor
      · intro hR; exact absurd hR (by decide)
      · intro hR; exact absurd hR (hnotR hP)
  · obtain ⟨c2, tl, he, hor⟩ := subAll_head ATTACHMENT_AUDIO_RE audTmpl c s
      (lowN c.toNat = 38) (fun v hv => attach_match_head _ _ c s v hv)
      chLt (fun caps => ⟨_, rfl⟩)
    refine ⟨c2, tl, he, ?_⟩
    rcases hor with hc | ⟨hP, hc⟩
    · subst hc; exact Iff.rfl
    · subst hc
      constructor
      · intro hR; exact absurd hR (by decide)
      · intro hR; exact absurd hR (hnotR hP)
  · exact ⟨c, s, rfl, Iff.rfl⟩

/-- The whole sanitizer maps a non-empty body to a non-empty body whose first
character has the same R-class-ness as the original first character. -/
theorem massageL_head (c : Char) (s : List Char) :
    ∃ c2 tl, massageL (c :: s) = c2 :: tl ∧
      (bidirectional c2 = strR ↔ bidirectional c = strR) := by
  obtain ⟨t1, h1⟩ := escAmp_head c s
  obtain ⟨cb, t2, h2, i2⟩ := escLt_head c t1
  obtain ⟨cc, t3, h3, i3⟩ := escGt_head cb t2
  obtain ⟨cd, t4, h4, i4⟩ := subLink_head cc t3
  obtain ⟨ce, t5, h5, i5⟩ := attachStage_head cd t4
  obtain ⟨cf, t6, h6, i6⟩ := brSub_head ce t5
  refine ⟨cf, t6, ?_, i6.trans (i5.trans (i4.trans (i3.trans i2)))⟩
  unfold massageL
  rw [h1, h2, h3, h4, h5, h6]

/-- Any message built by the shared tail carries a direction equal to the
R-class test on its (sanitized) body's first character. -/
theorem mkMsg_dir (d t : List Char) (u : String) (col : Option String)
    (body : List Char) (gn gn2 : String) (m : Msg)
    (h : mkMsg d t u col body gn = .ok (some m, gn2)) :
    m.dir = match m.body.data with
      | [] => strLtr
      | c :: _ => if bidirectional c = strR then strRtl else strLtr := by
  unfold mkMsg at h
  cases hb : body with
  | nil => rw [hb] at h; cases h
  | cons c bs =>
    rw [hb] at h
    simp only [Except.ok.injEq, Prod.mk.injEq, Option.some.injEq] at h
    obtain ⟨hm, -⟩ := h
    subst hm
    obtain ⟨c2, tl, he, hiff⟩ := massageL_head c bs
    show (if bidirectional c = strR then strRtl else strLtr) =
      match (massageL (c :: bs)) with
      | [] => strLtr
      | c :: _ => if bidirectional c = strR then strRtl else strLtr
    rw [he]
    by_cases hR : bidirectional c = strR
    · rw [if_pos hR]
      dsimp only
      rw [if_pos (hiff.mpr hR)]
    · rw [if_neg hR]
      dsimp only
      rw [if_neg (fun hh => hR (hiff.mp hh))]

/-- C1 (amended): every record that classifies as a message gets direction
rtl exactly when the bidirectional class of the sanitized body's first
character is the single class R (Hebrew letters and friends) — not the whole
strongly-right-to-left family: Arabic letters, class AL, yield ltr. -/
theorem direction_from_first_char (line gn gn2 : String) (m : Msg)
    (h : ParseLine line gn = .ok (some m, gn2)) :
    m.dir = match m.body.data with
      | [] => strLtr
      | c :: _ => if bidirectional c = strR then strRtl else strLtr := by
  unfold ParseLine at h
  by_cases hl : line.length = 0
  · simp [hl] at h
  · simp only [if_neg hl] at h
    cases hw : reMatch WHATSAPP_RE line.data with
    | some caps =>
      rw [hw] at h
      dsimp only at h
      exact mkMsg_dir _ _ _ _ _ _ _ _ h
    | none =>
      rw [hw] at h
      dsimp only at h
      cases hf : reMatch FIRSTLINE_RE line.data with
      | none => rw [hf] at h; cases h
      | some caps =>
        rw [hf] at h
        dsimp only at h
        exact mkMsg_dir _ _ _ _ _ _ _ _ h

/-- Witness for `direction_from_first_char`: the Hebrew-initial record
classifies with direction rtl, matching the R test on its first character. -/
theorem direction_from_first_char_witness :
    msgHebrew.dir = match msgHebrew.body.data with
      | [] => strLtr
      | c :: _ => if bidirectional c = strR then strRtl else strLtr :=
  direction_from_first_char recHebrew strChat strChat msgHebrew rfl

/-- C1 counterexample: a record whose body begins with an Arabic letter
(bidirectional class AL, a strongly right-to-left class) is classified with
direction ltr, because the source compares the class against the string R
only. -/
theorem direction_arabic_counterexample :
    (parsedMsg (ParseLine recArabic strChat)).map Msg.dir = some strLtr ∧
    (parsedMsg (ParseLine recArabic strChat)).map (fun m => m.body.data.head?) =
      some (some chMeem) ∧
    bidirectional chMeem = strAL :=
  ⟨rfl, rfl, rfl⟩
